import Mathlib

/-!
Verification development for the Azure pricing snapshot ingestion pipeline
(`src/functions-python/PriceSnapshot/__init__.py`).

The Python module is shallowly embedded: pure helpers become Lean functions,
the run-tracking table (primary key `(snapshotId, currencyCode)`) becomes a
finite map represented as a function, machine integers become `Int`/`Nat`,
and fallible operations return `Except`.
-/

set_option maxRecDepth 100000

namespace PriceSnapshot

/-! ## Constants (module-level constants of the Python source) -/

def API_BASE_URL : String := "https://prices.azure.com/api/retail/prices"

def DEFAULT_API_VERSION : String := "2023-01-01-preview"

def DEFAULT_CURRENCIES : String := "USD,EUR"

def DEFAULT_BATCH_SIZE : Int := 90

def DEFAULT_MAX_RETRIES : Int := 5

def DEFAULT_REQUEST_TIMEOUT : Int := 120

def MAX_BACKOFF_SECONDS : Nat := 60

def PARAMS_PER_ITEM : Int := 22

def RUN_STATUS_RUNNING : String := "RUNNING"

def RUN_STATUS_SUCCEEDED : String := "SUCCEEDED"

def RUN_STATUS_FAILED : String := "FAILED"

def MAX_EXECUTION_TIME_HOURS : Nat := 2

/-! ## Values and pricing items

A Python value bound as a SQL parameter: `item.get(k)` yields an arbitrary
JSON value or `None`; we model the values that actually occur as parameters.
-/

inductive Value where
  | str (s : String)
  | int (n : Int)
  | num (mantissa : Int) (exponent : Nat)
  | none
deriving DecidableEq, Repr

/--
A pricing item as returned by the retail prices API.  Each field models
`item.get("<field>")` in `_extract_item_params` / `_deduplicate_batch`;
`isPrimaryMeterRegion` models the truthiness test `1 if item.get(...) else 0`.
-/
structure Item where
  meterId : Value
  effectiveStartDate : Value
  retailPrice : Value
  unitPrice : Value
  unitOfMeasure : Value
  armRegionName : Value
  location : Value
  productId : Value
  productName : Value
  skuId : Value
  skuName : Value
  serviceId : Value
  serviceName : Value
  serviceFamily : Value
  meterName : Value
  armSkuName : Value
  reservationTerm : Value
  type : Value
  isPrimaryMeterRegion : Bool
  tierMinimumUnits : Value
  availabilityId : Value
deriving DecidableEq, Repr

/-- The deduplication key built in `_deduplicate_batch`:
`(item.get("meterId"), item.get("effectiveStartDate"), currency)`. -/
def dedupKey (currency : String) (item : Item) : Value × Value × String :=
  (item.meterId, item.effectiveStartDate, currency)

/-! ## DatabaseService._deduplicate_batch

The Python loop keeps a `seen_keys` set, appends an item to `unique_batch`
when its key is new, and counts the dropped duplicates.  The set is modelled
as the list of keys seen so far.
-/

def dedupGo (currency : String) : List Item → List (Value × Value × String) → List Item × Nat
  | [], _ => ([], 0)
  | item :: rest, seen =>
    let key := dedupKey currency item
    if key ∈ seen then
      let r := dedupGo currency rest seen
      (r.1, r.2 + 1)
    else
      let r := dedupGo currency rest (key :: seen)
      (item :: r.1, r.2)

/-- `DatabaseService._deduplicate_batch(batch, currency)`:
returns `(unique_batch, duplicates)`. -/
def deduplicate_batch (batch : List Item) (currency : String) : List Item × Nat :=
  dedupGo currency batch []

/--
Reference function written from the words of the spec (section 4.2):
keep, in iteration order, the first occurrence of each distinct
`(meterId, effectiveStartDate, currencyCode)` key and drop the later ones.
Used only to compare `deduplicate_batch` against the spec.
-/
def dedupeSpec (currency : String) : List Item → List Item
  | [] => []
  | x :: xs =>
      x :: dedupeSpec currency
        (xs.filter (fun y => decide (dedupKey currency y ≠ dedupKey currency x)))
termination_by l => l.length
decreasing_by
  simp only [List.length_cons]
  exact Nat.lt_succ_of_le (List.length_filter_le _ xs)

/-- Sample item used to evaluate theorems on concrete inputs. -/
def mkItem (m d : String) : Item :=
  { meterId := .str m, effectiveStartDate := .str d,
    retailPrice := .none, unitPrice := .none, unitOfMeasure := .none,
    armRegionName := .none, location := .none, productId := .none,
    productName := .none, skuId := .none, skuName := .none,
    serviceId := .none, serviceName := .none, serviceFamily := .none,
    meterName := .none, armSkuName := .none, reservationTerm := .none,
    type := .none, isPrimaryMeterRegion := false,
    tierMinimumUnits := .none, availabilityId := .none }


/-! ## Configuration (`PricingConfig`)

`os.environ` is modelled as an explicit record of the variables the module
reads; `int(...)` parsing of numeric variables is modelled by carrying the
parsed `Int` directly.  Python `str.split(",")` and `str.strip()` are
modelled character by character (`splitOnComma`, `pyStrip`): in particular
`"".split(",")` yields `[""]`, exactly as in Python.
-/

def splitOnComma : List Char → List (List Char)
  | [] => [[]]
  | c :: rest =>
      match splitOnComma rest with
      | [] => [[]]
      | g :: gs => if c = ',' then [] :: g :: gs else (c :: g) :: gs

/-- Python `str.strip()`: drop whitespace from both ends. -/
def pyStrip (cs : List Char) : List Char :=
  ((cs.dropWhile Char.isWhitespace).reverse.dropWhile Char.isWhitespace).reverse

/-- Python `s.split(",")` followed by `str.strip` on each part, as in
`[c.strip() for c in currencies_str.split(",")]`. -/
def parseCurrencies (s : String) : List String :=
  (splitOnComma s.data).map (fun g => String.mk (pyStrip g))

/-- The environment variables read by `PricingConfig.from_environment`.
The two SQL settings are accessed with `os.environ[...]` (no default), so
they are required fields here. -/
structure Env where
  CURRENCIES : Option String
  API_VERSION : Option String
  BATCH_SIZE : Option Int
  MAX_RETRIES : Option Int
  REQUEST_TIMEOUT : Option Int
  SQL_SERVER_FQDN : String
  SQL_DATABASE_NAME : String
deriving Repr

structure PricingConfig where
  api_base_url : String
  api_version : String
  currencies : List String
  batch_size : Int
  max_retries : Int
  request_timeout : Int
  sql_server_fqdn : String
  sql_database_name : String
deriving DecidableEq, Repr

/-- `PricingConfig.from_environment`. -/
def PricingConfig.from_environment (env : Env) : PricingConfig :=
  let currencies_str := env.CURRENCIES.getD DEFAULT_CURRENCIES
  let currencies := parseCurrencies currencies_str
  { api_base_url := API_BASE_URL,
    api_version := env.API_VERSION.getD DEFAULT_API_VERSION,
    currencies := currencies,
    batch_size := env.BATCH_SIZE.getD DEFAULT_BATCH_SIZE,
    max_retries := env.MAX_RETRIES.getD DEFAULT_MAX_RETRIES,
    request_timeout := env.REQUEST_TIMEOUT.getD DEFAULT_REQUEST_TIMEOUT,
    sql_server_fqdn := env.SQL_SERVER_FQDN,
    sql_database_name := env.SQL_DATABASE_NAME }

/-- `PricingConfig.validate`: raising `ValueError` is modelled as `.error`.
It is a pure check, performed in `main` before any network or store call. -/
def PricingConfig.validate (c : PricingConfig) : Except String Unit :=
  if c.batch_size < 1 ∨ c.batch_size > 95 then
    .error "BATCH_SIZE must be between 1 and 95"
  else if c.batch_size * PARAMS_PER_ITEM ≥ 2100 then
    .error "BATCH_SIZE would exceed SQL Server 2100 parameter limit"
  else if c.currencies = [] then
    .error "At least one currency must be configured"
  else
    .ok ()

/-- A concrete, otherwise-valid configuration used to evaluate theorems. -/
def sampleConfig (bs : Int) : PricingConfig :=
  { api_base_url := API_BASE_URL, api_version := DEFAULT_API_VERSION,
    currencies := ["USD"], batch_size := bs, max_retries := 5,
    request_timeout := 120, sql_server_fqdn := "srv", sql_database_name := "db" }


/-- The environment with `CURRENCIES` set to the empty string. -/
def envEmptyCurrencies : Env :=
  { CURRENCIES := some "", API_VERSION := none, BATCH_SIZE := none,
    MAX_RETRIES := none, REQUEST_TIMEOUT := none,
    SQL_SERVER_FQDN := "srv", SQL_DATABASE_NAME := "db" }


/-! ## DatabaseService upsert machinery -/

/-- One `VALUES` row of `_build_merge_statement`: 22 placeholders. -/
def value_placeholder_row : String :=
  "(?, ?, ?, ?, ?, ?, ?, ?, ?, ?, ?, ?, ?, ?, ?, ?, ?, ?, ?, ?, ?, ?)"

/-- The text of the merge statement before the `VALUES` rows. -/
def merge_statement_head : String :=
  "\n        MERGE INTO dbo.AzureRetailPrices AS target\n        USING (\n            VALUES\n            "

/-- The text of the merge statement after the `VALUES` rows: source column
list, match condition on the key triple, the `WHEN MATCHED` update of every
non-key column plus `lastSeenUtc`, and the `WHEN NOT MATCHED` insert. -/
def merge_statement_tail : String :=
  "\n        ) AS source (\n            meterId, effectiveStartDate, currencyCode, retailPrice, unitPrice, unitOfMeasure,\n            armRegionName, location, productId, productName, skuId, skuName,\n            serviceId, serviceName, serviceFamily, meterName, armSkuName,\n            reservationTerm, type, isPrimaryMeterRegion, tierMinimumUnits, availabilityId\n        )\n        ON target.meterId = source.meterId\n           AND target.effectiveStartDate = source.effectiveStartDate\n           AND target.currencyCode = source.currencyCode\n        WHEN MATCHED THEN\n            UPDATE SET\n                retailPrice = source.retailPrice,\n                unitPrice = source.unitPrice,\n                unitOfMeasure = source.unitOfMeasure,\n                armRegionName = source.armRegionName,\n                location = source.location,\n                productId = source.productId,\n                productName = source.productName,\n                skuId = source.skuId,\n                skuName = source.skuName,\n                serviceId = source.serviceId,\n                serviceName = source.serviceName,\n                serviceFamily = source.serviceFamily,\n                meterName = source.meterName,\n                armSkuName = source.armSkuName,\n                reservationTerm = source.reservationTerm,\n                type = source.type,\n                isPrimaryMeterRegion = source.isPrimaryMeterRegion,\n                tierMinimumUnits = source.tierMinimumUnits,\n                availabilityId = source.availabilityId,\n                lastSeenUtc = SYSUTCDATETIME()\n        WHEN NOT MATCHED THEN\n            INSERT (\n                meterId, effectiveStartDate, currencyCode, retailPrice, unitPrice, unitOfMeasure,\n                armRegionName, location, productId, productName, skuId, skuName,\n                serviceId, serviceName, serviceFamily, meterName, armSkuName,\n                reservationTerm, type, isPrimaryMeterRegion, tierMinimumUnits, availabilityId,\n                lastSeenUtc\n            )\n            VALUES (\n                source.meterId, source.effectiveStartDate, source.currencyCode,\n                source.retailPrice, source.unitPrice, source.unitOfMeasure,\n                source.armRegionName, source.location, source.productId, source.productName,\n                source.skuId, source.skuName, source.serviceId, source.serviceName,\n                source.serviceFamily, source.meterName, source.armSkuName,\n                source.reservationTerm, source.type, source.isPrimaryMeterRegion,\n                source.tierMinimumUnits, source.availabilityId, SYSUTCDATETIME()\n            );\n        "

/-- Python `",\n".join(rows)`. -/
def joinSep (sep : String) : List String → String
  | [] => ""
  | x :: xs => xs.foldl (fun acc y => acc ++ sep ++ y) x

/-- `DatabaseService._build_merge_statement(batch_size)`. -/
def build_merge_statement (batch_size : Nat) : String :=
  let value_rows := List.replicate batch_size value_placeholder_row
  let values_clause := joinSep ",\n" value_rows
  merge_statement_head ++ values_clause ++ merge_statement_tail

/-- Number of `?` parameter placeholders in a SQL string. -/
def countQ (s : String) : Nat := s.data.count '?'

/-- `DatabaseService._extract_item_params(item, currency)`: the 22 values
bound for one item, in column order. -/
def extract_item_params (item : Item) (currency : String) : List Value :=
  [item.meterId,
   item.effectiveStartDate,
   .str currency,
   item.retailPrice,
   item.unitPrice,
   item.unitOfMeasure,
   item.armRegionName,
   item.location,
   item.productId,
   item.productName,
   item.skuId,
   item.skuName,
   item.serviceId,
   item.serviceName,
   item.serviceFamily,
   item.meterName,
   item.armSkuName,
   item.reservationTerm,
   item.type,
   .int (if item.isPrimaryMeterRegion then 1 else 0),
   item.tierMinimumUnits,
   item.availabilityId]

/-- The slicing loop `for i in range(0, len(items), batch_size):
batch = items[i:i+batch_size]`, recursing on the length of the remaining
list carried as explicit fuel (so the definition evaluates by kernel
reduction).  Python raises `ValueError` for a zero step, so the
`batch_size = 0` case (returning no chunks) is unreachable under a
validated configuration, where `batch_size ≥ 1`. -/
def chunkGo (batch_size : Nat) : Nat → List Item → List (List Item)
  | _, [] => []
  | 0, _ :: _ => []
  | fuel + 1, x :: xs =>
      if batch_size = 0 then []
      else (x :: xs).take batch_size :: chunkGo batch_size fuel ((x :: xs).drop batch_size)

def chunkList (batch_size : Nat) (l : List Item) : List (List Item) :=
  chunkGo batch_size l.length l

/-- One executed bulk `MERGE`: its SQL text, its bound parameters in order,
and the deduplicated rows it carries. -/
structure Stmt where
  sql : String
  params : List Value
  rows : List Item
deriving DecidableEq, Repr, Inhabited

/-- The per-chunk body of `upsert_prices_batch`: deduplicate the chunk, skip
it when empty, otherwise build the merge statement, extend the parameter
list item by item, execute, and add the unique count to `processed_count`. -/
def upsertGo (currency : String) : List (List Item) → List Stmt × Nat
  | [] => ([], 0)
  | chunk :: rest =>
      let unique_batch := (deduplicate_batch chunk currency).1
      if unique_batch.isEmpty then upsertGo currency rest
      else
        let stmt : Stmt :=
          { sql := build_merge_statement unique_batch.length,
            params := unique_batch.foldl (fun acc it => acc ++ extract_item_params it currency) [],
            rows := unique_batch }
        let r := upsertGo currency rest
        (stmt :: r.1, unique_batch.length + r.2)

/-- `DatabaseService.upsert_prices_batch`: returns the executed statements
and the processed count.  `if not items: return 0` short-circuits. -/
def upsert_prices_batch (snapshot_id currency : String) (items : List Item)
    (batch_size : Nat) : List Stmt × Nat :=
  if items.isEmpty then ([], 0)
  else upsertGo currency (chunkList batch_size items)

/-! ## Run tracking (`dbo.PriceSnapshotRuns`)

The run table has primary key `(snapshotId, currencyCode)` (spec section 6),
so it is modelled as a function from that key to an optional row.
Timestamps are UTC hours as natural numbers; `DATEDIFF(HOUR, a, b)` on
whole-hour timestamps is `b - a`.
-/

structure RunRow where
  snapshotId : String
  currencyCode : String
  startedUtc : Nat
  finishedUtc : Option Nat
  status : String
  itemCount : Option Nat
deriving DecidableEq, Repr

def RunsTable : Type := String × String → Option RunRow

/-- `DatabaseService.create_snapshot_run`: insert the row when absent, else
reset it to RUNNING with `finishedUtc`/`itemCount` cleared — both branches
leave the same row under the key. -/
def create_snapshot_run (snapshot_id currency : String) (started_utc : Nat)
    (tbl : RunsTable) : RunsTable :=
  fun k =>
    if k = (snapshot_id, currency) then
      match tbl k with
      | Option.none =>
          some { snapshotId := snapshot_id, currencyCode := currency,
                 startedUtc := started_utc, finishedUtc := Option.none,
                 status := RUN_STATUS_RUNNING, itemCount := Option.none }
      | some _ =>
          some { snapshotId := snapshot_id, currencyCode := currency,
                 startedUtc := started_utc, finishedUtc := Option.none,
                 status := RUN_STATUS_RUNNING, itemCount := Option.none }
    else tbl k

/-- `DatabaseService.update_snapshot_status`: `UPDATE` of the matching row;
a missing row stays missing (the `UPDATE` matches nothing). `now` models
`SYSUTCDATETIME()`. -/
def update_snapshot_status (snapshot_id currency status : String) (item_count : Nat)
    (now : Nat) (tbl : RunsTable) : RunsTable :=
  fun k =>
    if k = (snapshot_id, currency) then
      (tbl k).map (fun r =>
        { r with finishedUtc := some now, status := status, itemCount := some item_count })
    else tbl k

/-- `cleanup_hung_snapshots`: the whole body runs in a `try`/`except` that
logs and swallows any error, so the connection flag `db_ok` selects between
the successful `UPDATE` and the no-effect error path; in both cases the
function returns normally.  The `UPDATE` marks every RUNNING row whose age
in hours exceeds `MAX_EXECUTION_TIME_HOURS` as FAILED with
`finishedUtc = GETUTCDATE()`. -/
def cleanup_hung_snapshots (db_ok : Bool) (now : Nat) (tbl : RunsTable) : RunsTable :=
  if db_ok then
    fun k =>
      match tbl k with
      | Option.none => Option.none
      | some r =>
          if r.status = RUN_STATUS_RUNNING ∧ now - r.startedUtc > MAX_EXECUTION_TIME_HOURS then
            some { r with status := RUN_STATUS_FAILED, finishedUtc := some now }
          else some r
  else tbl

/-! ## APIClient.fetch_page

One HTTP attempt either succeeds with a JSON body, is rate limited (HTTP
429), or fails with a `RequestException` (network error or non-2xx raised by
`raise_for_status`).  The environment is the outcome of each attempt number;
the loop runs attempts `1 .. max_retries`, sleeping
`min(2 ** attempt, MAX_BACKOFF_SECONDS)` before every retry.  The returned
trace records the sleeps in order.
-/

inductive AttemptOutcome where
  | success (body : String)
  | rateLimited
  | transientError (e : String)
deriving DecidableEq, Repr

inductive FetchError where
  | underlying (e : String)
  | terminal (url : String) (attempts : Nat)
deriving DecidableEq, Repr

def fetchGo (url : String) (max_retries : Nat) (outcomes : Nat → AttemptOutcome) :
    Nat → Nat → Except FetchError String × List Nat
  | 0, _ => (.error (.terminal url max_retries), [])
  | fuel + 1, attempt =>
      match outcomes attempt with
      | .success body => (.ok body, [])
      | .rateLimited =>
          let r := fetchGo url max_retries outcomes fuel (attempt + 1)
          (r.1, min (2 ^ attempt) MAX_BACKOFF_SECONDS :: r.2)
      | .transientError e =>
          if attempt = max_retries then (.error (.underlying e), [])
          else
            let r := fetchGo url max_retries outcomes fuel (attempt + 1)
            (r.1, min (2 ^ attempt) MAX_BACKOFF_SECONDS :: r.2)

/-- `APIClient.fetch_page(url)` under attempt outcomes `outcomes`: the loop
`for attempt in range(1, max_retries + 1)` runs attempts `1 .. max_retries`,
so the remaining-iteration count `max_retries + 1 - attempt` is the fuel. -/
def fetch_page (url : String) (max_retries : Nat) (outcomes : Nat → AttemptOutcome) :
    Except FetchError String × List Nat :=
  fetchGo url max_retries outcomes max_retries 1

/-- `APIClient.build_api_url`. -/
def build_api_url (api_base_url api_version currency : String)
    (next_page_link : Option String) : String :=
  match next_page_link with
  | some link => link
  | Option.none =>
      api_base_url ++ "?api-version=" ++ api_version ++ "&currencyCode=" ++ currency

/-! ## PricingService / orchestrator

A fetched page is its list of items; a finite page sequence whose last page
has a null `NextPageLink` is the list of pages in fetch order (the loop
`while next_page_link:` advances along `NextPageLink` and stops at the
null link of the last page).
-/

structure Page where
  items : List Item
deriving DecidableEq, Repr

/-- The fetch loop of `PricingService.process_currency`: one fetch per page,
upserting non-empty item lists and accumulating `total_items`.  Returns
`(number of fetches, total_items)`. -/
def processPages (snapshot_id currency : String) (batch_size : Nat) :
    List Page → Nat × Nat
  | [] => (0, 0)
  | page :: rest =>
      let items_processed :=
        if page.items.isEmpty then 0
        else (upsert_prices_batch snapshot_id currency page.items batch_size).2
      let r := processPages snapshot_id currency batch_size rest
      (r.1 + 1, items_processed + r.2)

/-- What happens when one currency is processed: either the fetch loop
completes over a finite page sequence, or some step raises. -/
inductive CurrencyScript where
  | pages (ps : List Page)
  | failWith (e : String)
deriving DecidableEq, Repr

def isPages : CurrencyScript → Bool
  | .pages _ => true
  | .failWith _ => false

/-- `PricingService.process_currency`: create the run row, run the fetch
loop, then mark the run SUCCEEDED with the total.  An exception anywhere
after run creation propagates with the table as updated so far. -/
def process_currency (snapshot_id currency : String) (batch_size started_utc now : Nat)
    (script : CurrencyScript) (tbl : RunsTable) :
    Except (String × RunsTable) (Nat × Nat × RunsTable) :=
  let tbl1 := create_snapshot_run snapshot_id currency started_utc tbl
  match script with
  | .pages ps =>
      let r := processPages snapshot_id currency batch_size ps
      .ok (r.1, r.2,
        update_snapshot_status snapshot_id currency RUN_STATUS_SUCCEEDED r.2 now tbl1)
  | .failWith e => .error (e, tbl1)

/-- `process_all_currencies`: sequential loop over the configured
currencies; each result line is `f"{currency}: {item_count} items"`.  On an
exception the failing currency is marked FAILED with item count 0 and the
exception is re-raised, so the remaining currencies are never processed.
The second component of the result is the trace of currencies on which
`process_currency` was invoked, in order. -/
def process_all_currencies (snapshot_id : String) (batch_size started_utc now : Nat)
    (script : String → CurrencyScript) (currencies : List String) (tbl : RunsTable) :
    Except (String × List String × RunsTable) (List String × List String × RunsTable) :=
  match currencies with
  | [] => .ok ([], [], tbl)
  | c :: rest =>
      let currency := String.mk (pyStrip c.data)
      match process_currency snapshot_id currency batch_size started_utc now
          (script currency) tbl with
      | .ok (_, item_count, tbl1) =>
          match process_all_currencies snapshot_id batch_size started_utc now
              script rest tbl1 with
          | .ok (results, trace, tbl2) =>
              .ok ((currency ++ ": " ++ toString item_count ++ " items") :: results,
                currency :: trace, tbl2)
          | .error (e, trace, tbl2) => .error (e, currency :: trace, tbl2)
      | .error (e, tbl1) =>
          let tbl2 := update_snapshot_status snapshot_id currency RUN_STATUS_FAILED 0 now tbl1
          .error (e, [currency], tbl2)


/-- A RUNNING run row started at hour 0, used to evaluate theorems. -/
def hungRow : RunRow :=
  { snapshotId := "202501", currencyCode := "USD", startedUtc := 0,
    finishedUtc := Option.none, status := RUN_STATUS_RUNNING,
    itemCount := Option.none }

/-- A one-row run table holding `hungRow`. -/
def hungTable : RunsTable :=
  fun k => if k = ("202501", "USD") then some hungRow else Option.none

/-- Concrete attempt outcomes used to evaluate theorems: rate limited on
every attempt except attempt 2, which fails with a transient error. -/
def sampleOutcomes : Nat → AttemptOutcome :=
  fun i => if i = 2 then .transientError "boom" else .rateLimited

/-- The total a currency's script yields when it completes: the sum its
fetch loop accumulates, and 0 for a failing script. -/
def scriptTotal (script : String → CurrencyScript) (snapshot_id : String)
    (batch_size : Nat) (cur : String) : Nat :=
  match script cur with
  | .pages ps => (processPages snapshot_id cur batch_size ps).2
  | .failWith _ => 0

/-- The empty run table. -/
def emptyRuns : RunsTable := fun _ => Option.none

/-- The two three-item pages of the spec scenario (no duplicate keys,
second page with a null next link, modelled as the end of the list). -/
def samplePages : List Page :=
  [{ items := [mkItem "m1" "d1", mkItem "m2" "d1", mkItem "m3" "d1"] },
   { items := [mkItem "m4" "d1", mkItem "m5" "d1", mkItem "m6" "d1"] }]

/-- Scenario scripts: USD completes over one single-item page, EUR raises,
any other currency completes over no pages. -/
def sampleScript : String → CurrencyScript :=
  fun cur =>
    if cur = "EUR" then .failWith "boom"
    else if cur = "USD" then .pages [{ items := [mkItem "m1" "d1"] }]
    else .pages []

/-! ## Theorems -/

theorem dedupGo_fst (c : String) (b : List Item) :
    ∀ seen : List (Value × Value × String),
      (dedupGo c b seen).1
        = dedupeSpec c (b.filter (fun x => decide (dedupKey c x ∉ seen))) := by
  induction b with
  | nil => intro seen; simp [dedupGo, dedupeSpec]
  | cons x xs ih =>
    intro seen
    by_cases h : dedupKey c x ∈ seen
    · have hx : decide (dedupKey c x ∉ seen) = false := by simp [h]
      simp only [dedupGo, h, if_true, List.filter_cons, hx, if_false, Bool.false_eq_true,
        ↓reduceIte]
      exact ih seen
    · have hx : decide (dedupKey c x ∉ seen) = true := by simp [h]
      simp only [dedupGo, h, if_false, List.filter_cons, hx, if_true, Bool.false_eq_true,
        ↓reduceIte]
      rw [dedupeSpec.eq_def]
      congr 1
      rw [ih (dedupKey c x :: seen), List.filter_filter]
      congr 1
      apply List.filter_congr
      intro y _
      by_cases hy : dedupKey c y = dedupKey c x <;> by_cases hs : dedupKey c y ∈ seen <;>
        simp [hy, hs]

theorem dedupGo_len (c : String) (b : List Item) :
    ∀ seen, (dedupGo c b seen).1.length + (dedupGo c b seen).2 = b.length := by
  induction b with
  | nil => intro seen; simp [dedupGo]
  | cons x xs ih =>
    intro seen
    by_cases h : dedupKey c x ∈ seen
    · have hx := ih seen
      simp only [dedupGo, h, if_true, List.length_cons]
      omega
    · have hx := ih (dedupKey c x :: seen)
      simp only [dedupGo, h, if_false, List.length_cons]
      omega

theorem dedupGo_sublist (c : String) (b : List Item) :
    ∀ seen, (dedupGo c b seen).1.Sublist b := by
  induction b with
  | nil => intro seen; simp [dedupGo]
  | cons x xs ih =>
    intro seen
    by_cases h : dedupKey c x ∈ seen
    · simp only [dedupGo, h, if_true]
      exact (ih seen).cons x
    · simp only [dedupGo, h, if_false]
      exact (ih (dedupKey c x :: seen)).cons₂ x

theorem dedupGo_nodup (c : String) (b : List Item) :
    ∀ seen, ((dedupGo c b seen).1.map (dedupKey c)).Nodup
      ∧ ∀ k ∈ (dedupGo c b seen).1.map (dedupKey c), k ∉ seen := by
  induction b with
  | nil => intro seen; simp [dedupGo]
  | cons x xs ih =>
    intro seen
    by_cases h : dedupKey c x ∈ seen
    · simpa only [dedupGo, h, if_true] using ih seen
    · obtain ⟨hnd, hns⟩ := ih (dedupKey c x :: seen)
      simp only [dedupGo, h, if_false, List.map_cons, List.nodup_cons]
      refine ⟨⟨fun hk => ?_, hnd⟩, ?_⟩
      · exact (hns _ hk) (List.mem_cons_self _ _)
      · intro k hk
        rcases List.mem_cons.mp hk with rfl | hk
        · exact h
        · exact fun hks => (hns _ hk) (List.mem_cons_of_mem _ hks)

theorem dedupGo_cover (c : String) (b : List Item) :
    ∀ seen, ∀ x ∈ b,
      dedupKey c x ∈ (dedupGo c b seen).1.map (dedupKey c) ∨ dedupKey c x ∈ seen := by
  induction b with
  | nil => intro seen x hx; cases hx
  | cons y ys ih =>
    intro seen x hx
    by_cases h : dedupKey c y ∈ seen
    · simp only [dedupGo, h, if_true]
      rcases List.mem_cons.mp hx with rfl | hx
      · exact Or.inr h
      · exact ih seen x hx
    · simp only [dedupGo, h, if_false, List.map_cons]
      rcases List.mem_cons.mp hx with rfl | hx
      · exact Or.inl (List.mem_cons_self _ _)
      · rcases ih (dedupKey c y :: seen) x hx with hm | hm
        · exact Or.inl (List.mem_cons_of_mem _ hm)
        · rcases List.mem_cons.mp hm with he | hs
          · rw [he]; exact Or.inl (List.mem_cons_self _ _)
          · exact Or.inr hs

/--
C2: for every list of items and currency code, `_deduplicate_batch` returns
exactly one entry per distinct `(meterId, effectiveStartDate, currencyCode)`
key — the first occurrence in iteration order (it equals the first-occurrence
reference function `dedupeSpec`), with no two kept entries sharing a key,
every input key represented, first-seen order preserved (the output is a
sublist of the input), and the duplicate count equal to input length minus
output length.
-/
theorem deduplicate_batch_correct (batch : List Item) (currency : String) :
    (deduplicate_batch batch currency).1 = dedupeSpec currency batch ∧
    (deduplicate_batch batch currency).2
      = batch.length - (deduplicate_batch batch currency).1.length ∧
    ((deduplicate_batch batch currency).1.map (dedupKey currency)).Nodup ∧
    (∀ x ∈ batch,
      dedupKey currency x ∈ (deduplicate_batch batch currency).1.map (dedupKey currency)) ∧
    (deduplicate_batch batch currency).1.Sublist batch := by
  refine ⟨?_, ?_, ?_, ?_, ?_⟩
  · have h := dedupGo_fst currency batch []
    simpa [deduplicate_batch] using h
  · have h := dedupGo_len currency batch []
    simp only [deduplicate_batch]
    omega
  · exact (dedupGo_nodup currency batch []).1
  · intro x hx
    rcases dedupGo_cover currency batch [] x hx with hm | hm
    · exact hm
    · cases hm
  · exact dedupGo_sublist currency batch []

/-- C2 witness: the claim theorem evaluated on the concrete batch
`[m1, m2, m1-duplicate]` with currency `USD`. -/
theorem deduplicate_batch_correct_witness :
    (deduplicate_batch [mkItem "m1" "d1", mkItem "m2" "d1", mkItem "m1" "d1"] "USD").1
        = dedupeSpec "USD" [mkItem "m1" "d1", mkItem "m2" "d1", mkItem "m1" "d1"] ∧
    (deduplicate_batch [mkItem "m1" "d1", mkItem "m2" "d1", mkItem "m1" "d1"] "USD").2
        = [mkItem "m1" "d1", mkItem "m2" "d1", mkItem "m1" "d1"].length
            - (deduplicate_batch [mkItem "m1" "d1", mkItem "m2" "d1", mkItem "m1" "d1"]
                "USD").1.length ∧
    ((deduplicate_batch [mkItem "m1" "d1", mkItem "m2" "d1", mkItem "m1" "d1"] "USD").1.map
        (dedupKey "USD")).Nodup ∧
    (∀ x ∈ [mkItem "m1" "d1", mkItem "m2" "d1", mkItem "m1" "d1"],
      dedupKey "USD" x
        ∈ (deduplicate_batch [mkItem "m1" "d1", mkItem "m2" "d1", mkItem "m1" "d1"]
            "USD").1.map (dedupKey "USD")) ∧
    (deduplicate_batch [mkItem "m1" "d1", mkItem "m2" "d1", mkItem "m1" "d1"] "USD").1.Sublist
      [mkItem "m1" "d1", mkItem "m2" "d1", mkItem "m1" "d1"] :=
  deduplicate_batch_correct [mkItem "m1" "d1", mkItem "m2" "d1", mkItem "m1" "d1"] "USD"

/--
C3: for every integer `batchSize`, `PricingConfig.validate` (with at least
one currency configured, so that only the batch-size checks are at stake)
accepts the configuration if and only if `1 ≤ batchSize ≤ 95` and
`batchSize * 22 < 2100`; otherwise it raises a configuration error.
`validate` is a pure check run in `main` before any network or store call.
-/
theorem validate_accepts_iff_batch_size_ok (c : PricingConfig) (hcur : c.currencies ≠ []) :
    c.validate = .ok ()
      ↔ (1 ≤ c.batch_size ∧ c.batch_size ≤ 95 ∧ c.batch_size * 22 < 2100) := by
  unfold PricingConfig.validate
  split_ifs with h1 h2 h3 <;> simp_all [PARAMS_PER_ITEM] <;> omega

/-- C3 witness: batchSize 95 (2090 parameters) is accepted and batchSize 100
(2200 parameters) is rejected. -/
theorem validate_accepts_iff_batch_size_ok_witness :
    (sampleConfig 95).validate = .ok () ∧ ¬ (sampleConfig 100).validate = .ok () :=
  ⟨(validate_accepts_iff_batch_size_ok (sampleConfig 95) (by decide)).mpr (by decide),
   fun h =>
     absurd ((validate_accepts_iff_batch_size_ok (sampleConfig 100) (by decide)).mp h)
       (by decide)⟩

/--
C10 counterexample: with the `CURRENCIES` environment value empty,
`from_environment` yields the single empty-string currency `[""]` (Python
`"".split(",") == [""]`) and `validate` succeeds — no configuration error is
raised, contrary to the claim.
-/
theorem from_environment_empty_currencies_accepted :
    (PricingConfig.from_environment envEmptyCurrencies).currencies = [""] ∧
    (PricingConfig.from_environment envEmptyCurrencies).validate = .ok () :=
  ⟨by decide, by rfl⟩

theorem splitOnComma_ne_nil : ∀ cs : List Char, splitOnComma cs ≠ [] := by
  intro cs
  induction cs with
  | nil => simp [splitOnComma]
  | cons c rest ih =>
    unfold splitOnComma
    cases h : splitOnComma rest with
    | nil => simp
    | cons g gs => dsimp only; split <;> simp

/--
C10 amended: configuration validation rejects (before any network or store
activity — `validate` is pure) every configuration whose currencies list is
empty; but `from_environment` never produces an empty currencies list — in
particular an empty `CURRENCIES` environment value yields the single
empty-string currency and passes validation rather than raising.
-/
theorem validate_rejects_empty_currency_list :
    (∀ c : PricingConfig, c.currencies = [] → c.validate ≠ .ok ()) ∧
    (∀ env : Env, (PricingConfig.from_environment env).currencies ≠ []) := by
  constructor
  · intro c hc
    unfold PricingConfig.validate
    split_ifs with h1 h2 h3 <;> simp_all
  · intro env
    simp only [PricingConfig.from_environment, parseCurrencies, ne_eq,
      List.map_eq_nil_iff]
    exact splitOnComma_ne_nil _

/-- C10 amended witness: a directly constructed configuration with an empty
currencies list is rejected. -/
theorem validate_rejects_empty_currency_list_witness :
    { sampleConfig 90 with currencies := ([] : List String) }.validate ≠ .ok () :=
  validate_rejects_empty_currency_list.1 _ rfl

theorem countQ_append (a b : String) : countQ (a ++ b) = countQ a + countQ b := by
  simp [countQ, String.data_append, List.count_append]

theorem countQ_value_row : countQ value_placeholder_row = 22 := by decide

theorem countQ_head : countQ merge_statement_head = 0 := by decide

theorem countQ_tail : countQ merge_statement_tail = 0 := by decide

theorem countQ_sep : countQ ",\n" = 0 := by decide

theorem countQ_foldl_replicate (sep row : String) (n : Nat) :
    ∀ init : String,
      countQ ((List.replicate n row).foldl (fun acc y => acc ++ sep ++ y) init)
        = countQ init + n * (countQ sep + countQ row) := by
  induction n with
  | zero => intro init; simp
  | succ m ih =>
    intro init
    rw [List.replicate_succ, List.foldl_cons, ih, countQ_append, countQ_append]
    ring

theorem countQ_joinSep_replicate (n : Nat) :
    countQ (joinSep ",\n" (List.replicate n value_placeholder_row)) = n * 22 := by
  cases n with
  | zero => rfl
  | succ m =>
    rw [List.replicate_succ]
    show countQ ((List.replicate m value_placeholder_row).foldl
      (fun acc y => acc ++ ",\n" ++ y) value_placeholder_row) = (m + 1) * 22
    rw [countQ_foldl_replicate, countQ_value_row, countQ_sep]
    ring

/-- The merge statement for a batch of `n` rows carries exactly `22 * n`
parameter placeholders. -/
theorem countQ_build_merge_statement (n : Nat) :
    countQ (build_merge_statement n) = 22 * n := by
  unfold build_merge_statement
  rw [countQ_append, countQ_append, countQ_head, countQ_tail,
    countQ_joinSep_replicate]
  ring

theorem length_extract_item_params (item : Item) (currency : String) :
    (extract_item_params item currency).length = 22 := rfl

theorem length_params_foldl (currency : String) (l : List Item) :
    ∀ acc : List Value,
      (l.foldl (fun acc it => acc ++ extract_item_params it currency) acc).length
        = acc.length + 22 * l.length := by
  induction l with
  | nil => intro acc; simp
  | cons x xs ih =>
    intro acc
    rw [List.foldl_cons, ih, List.length_append, length_extract_item_params]
    simp only [List.length_cons]
    ring

theorem chunkGo_mem_length (bs : Nat) :
    ∀ (fuel : Nat) (l : List Item), ∀ chunk ∈ chunkGo bs fuel l, chunk.length ≤ bs := by
  intro fuel
  induction fuel with
  | zero =>
    intro l chunk hc
    cases l <;> simp [chunkGo] at hc
  | succ m ih =>
    intro l chunk hc
    match l with
    | [] => simp [chunkGo] at hc
    | x :: xs =>
      by_cases hbs : bs = 0
      · rw [chunkGo, if_pos hbs] at hc
        simp at hc
      · rw [chunkGo, if_neg hbs] at hc
        rcases List.mem_cons.mp hc with rfl | hc
        · simpa using Nat.min_le_left bs (x :: xs).length
        · exact ih ((x :: xs).drop bs) chunk hc

theorem chunkList_mem_length (bs : Nat) (l : List Item) :
    ∀ chunk ∈ chunkList bs l, chunk.length ≤ bs :=
  chunkGo_mem_length bs l.length l

theorem upsertGo_mem (c : String) (chunks : List (List Item)) :
    ∀ stmt ∈ (upsertGo c chunks).1, ∃ chunk ∈ chunks,
      stmt.rows = (deduplicate_batch chunk c).1 ∧
      stmt.sql = build_merge_statement stmt.rows.length ∧
      stmt.params
        = stmt.rows.foldl (fun acc it => acc ++ extract_item_params it c) [] := by
  induction chunks with
  | nil => intro stmt hs; simp [upsertGo] at hs
  | cons ch rest ih =>
    intro stmt hs
    by_cases he : (deduplicate_batch ch c).1.isEmpty
    · rw [upsertGo, if_pos he] at hs
      obtain ⟨chunk, hm, h⟩ := ih stmt hs
      exact ⟨chunk, List.mem_cons_of_mem _ hm, h⟩
    · rw [upsertGo, if_neg he] at hs
      rcases List.mem_cons.mp hs with rfl | hs
      · exact ⟨ch, List.mem_cons_self _ _, rfl, rfl, rfl⟩
      · obtain ⟨chunk, hm, h⟩ := ih stmt hs
        exact ⟨chunk, List.mem_cons_of_mem _ hm, h⟩

/--
C4: under a validated configuration (`1 ≤ batchSize` and
`batchSize * 22 < 2100`), every bulk upsert statement executed by
`upsert_prices_batch` binds exactly 22 parameters per row
(`_extract_item_params` yields 22 values per item and the merge statement
carries 22 placeholders per row), for a chunk of at most `batchSize` rows,
so every executed statement stays strictly below the 2100 bound-parameter
ceiling.
-/
theorem upsert_statement_params_bounded (snapshot_id currency : String)
    (items : List Item) (batch_size : Nat)
    (h1 : 1 ≤ batch_size) (h2 : batch_size * 22 < 2100) :
    ∀ stmt ∈ (upsert_prices_batch snapshot_id currency items batch_size).1,
      stmt.params.length = 22 * stmt.rows.length ∧
      countQ stmt.sql = 22 * stmt.rows.length ∧
      stmt.rows.length ≤ batch_size ∧
      stmt.params.length < 2100 := by
  intro stmt hs
  unfold upsert_prices_batch at hs
  by_cases hi : items.isEmpty
  · rw [if_pos hi] at hs; simp at hs
  · rw [if_neg hi] at hs
    obtain ⟨chunk, hm, hrows, hsql, hparams⟩ := upsertGo_mem currency _ stmt hs
    have hchunk : chunk.length ≤ batch_size :=
      chunkList_mem_length batch_size items chunk hm
    have hsub : stmt.rows.length ≤ chunk.length := by
      rw [hrows]
      exact (dedupGo_sublist currency chunk []).length_le
    have hplen : stmt.params.length = 22 * stmt.rows.length := by
      rw [hparams, length_params_foldl]
      simp
    refine ⟨hplen, ?_, ?_, ?_⟩
    · rw [hsql, countQ_build_merge_statement]
    · omega
    · rw [hplen]
      calc 22 * stmt.rows.length ≤ 22 * batch_size := by
            apply Nat.mul_le_mul_left
            omega
        _ < 2100 := by omega

/-- C4 witness: a two-item batch with batchSize 2 executes one statement of
44 parameters, 44 placeholders, 2 rows, well under the 2100 ceiling. -/
theorem upsert_statement_params_bounded_witness :
    ({ sql := build_merge_statement 2,
       params := [mkItem "m1" "d1", mkItem "m2" "d1"].foldl
         (fun acc it => acc ++ extract_item_params it "USD") [],
       rows := [mkItem "m1" "d1", mkItem "m2" "d1"] } : Stmt).params.length
        = 22 * ([mkItem "m1" "d1", mkItem "m2" "d1"] : List Item).length ∧
    countQ (build_merge_statement 2)
        = 22 * ([mkItem "m1" "d1", mkItem "m2" "d1"] : List Item).length ∧
    ([mkItem "m1" "d1", mkItem "m2" "d1"] : List Item).length ≤ 2 ∧
    ({ sql := build_merge_statement 2,
       params := [mkItem "m1" "d1", mkItem "m2" "d1"].foldl
         (fun acc it => acc ++ extract_item_params it "USD") [],
       rows := [mkItem "m1" "d1", mkItem "m2" "d1"] } : Stmt).params.length < 2100 :=
  upsert_statement_params_bounded "202501" "USD"
    [mkItem "m1" "d1", mkItem "m2" "d1"] 2 (by decide) (by decide)
    { sql := build_merge_statement 2,
      params := [mkItem "m1" "d1", mkItem "m2" "d1"].foldl
        (fun acc it => acc ++ extract_item_params it "USD") [],
      rows := [mkItem "m1" "d1", mkItem "m2" "d1"] }
    (by exact List.mem_cons_self _ _)

/--
C9 counterexample: with batchSize 2 and the three-item batch
`[m1, m2, m1-duplicate]`, one call to `upsert_prices_batch` splits the list
into the chunks `[m1, m2]` and `[m1-duplicate]`, deduplicates each chunk
separately, and the key `(m1, d1, USD)` therefore appears in a row of each
of the two executed statements — two rows across the call, not at most one.
-/
theorem upsert_dedup_not_global_counterexample :
    ((upsert_prices_batch "202501" "USD"
        [mkItem "m1" "d1", mkItem "m2" "d1", mkItem "m1" "d1"] 2).1.map
      (fun s => s.rows.countP
        (fun it => decide (dedupKey "USD" it = dedupKey "USD" (mkItem "m1" "d1"))))).sum
      = 2 := by decide

/--
C9 amended: deduplication is applied once per chunk before persistence:
within each single executed statement of an `upsert_prices_batch` call, each
distinct `(meterId, effectiveStartDate, currencyCode)` key occupies at most
one row (the rows of every statement carry pairwise distinct keys).  A key
may still appear in rows of several statements of the same call when
duplicates span a chunk boundary.
-/
theorem upsert_statement_rows_key_nodup (snapshot_id currency : String)
    (items : List Item) (batch_size : Nat) :
    ∀ stmt ∈ (upsert_prices_batch snapshot_id currency items batch_size).1,
      (stmt.rows.map (dedupKey currency)).Nodup := by
  intro stmt hs
  unfold upsert_prices_batch at hs
  by_cases hi : items.isEmpty
  · rw [if_pos hi] at hs; simp at hs
  · rw [if_neg hi] at hs
    obtain ⟨chunk, hm, hrows, _, _⟩ := upsertGo_mem currency _ stmt hs
    rw [hrows]
    exact (dedupGo_nodup currency chunk []).1

/-- C9 amended witness: the single statement of a one-item call has rows
with pairwise distinct keys. -/
theorem upsert_statement_rows_key_nodup_witness :
    (([mkItem "m1" "d1"] : List Item).map (dedupKey "USD")).Nodup :=
  upsert_statement_rows_key_nodup "202501" "USD" [mkItem "m1" "d1"] 1
    { sql := build_merge_statement 1,
      params := [mkItem "m1" "d1"].foldl
        (fun acc it => acc ++ extract_item_params it "USD") [],
      rows := [mkItem "m1" "d1"] }
    (by exact List.mem_cons_self _ _)

/--
C6: the hung-run reaper transitions every RUNNING row whose age in hours
exceeds `MAX_EXECUTION_TIME_HOURS` to FAILED with `finishedUtc = now`,
leaves every younger RUNNING row and every non-RUNNING row unchanged,
leaves absent rows absent, and never propagates an exception to its caller:
it is a total function into `RunsTable`, and on a database error (`db_ok =
false`) the error is swallowed and the table returned unchanged.
-/
theorem cleanup_hung_snapshots_correct (db_ok : Bool) (now : Nat) (tbl : RunsTable)
    (k : String × String) :
    (cleanup_hung_snapshots false now tbl = tbl) ∧
    (tbl k = Option.none → cleanup_hung_snapshots db_ok now tbl k = Option.none) ∧
    (∀ r, tbl k = some r →
      (r.status = RUN_STATUS_RUNNING → now - r.startedUtc > MAX_EXECUTION_TIME_HOURS →
        cleanup_hung_snapshots true now tbl k
          = some { r with status := RUN_STATUS_FAILED, finishedUtc := some now }) ∧
      (r.status = RUN_STATUS_RUNNING → ¬ now - r.startedUtc > MAX_EXECUTION_TIME_HOURS →
        cleanup_hung_snapshots true now tbl k = some r) ∧
      (r.status ≠ RUN_STATUS_RUNNING →
        cleanup_hung_snapshots true now tbl k = some r)) := by
  refine ⟨rfl, ?_, ?_⟩
  · intro h
    cases db_ok
    · simpa [cleanup_hung_snapshots] using h
    · simp [cleanup_hung_snapshots, h]
  · intro r hr
    refine ⟨?_, ?_, ?_⟩
    · intro h1 h2
      simp [cleanup_hung_snapshots, hr, h1, h2]
    · intro h1 h2
      simp [cleanup_hung_snapshots, hr, h1, h2]
    · intro h1
      simp [cleanup_hung_snapshots, hr, h1]

/-- C6 witness: at hour 5 the reaper marks the RUNNING row started at hour 0
(age 5 > 2) as FAILED with `finishedUtc = 5`. -/
theorem cleanup_hung_snapshots_correct_witness :
    cleanup_hung_snapshots true 5 hungTable ("202501", "USD")
      = some { hungRow with status := RUN_STATUS_FAILED, finishedUtc := some 5 } :=
  ((cleanup_hung_snapshots_correct true 5 hungTable ("202501", "USD")).2.2 hungRow
    (by decide)).1 rfl (by decide)

theorem fetchGo_underlying (url : String) (mr : Nat) (outcomes : Nat → AttemptOutcome)
    (e : String) (he : outcomes mr = .transientError e)
    (hnosucc : ∀ i, i ≤ mr → ∀ b, outcomes i ≠ .success b) :
    ∀ fuel attempt, attempt + fuel = mr + 1 → attempt ≤ mr →
      (fetchGo url mr outcomes fuel attempt).1 = .error (.underlying e) := by
  intro fuel
  induction fuel with
  | zero => intro attempt hsum hle; omega
  | succ f ih =>
    intro attempt hsum hle
    rw [fetchGo]
    cases hout : outcomes attempt with
    | success b => exact absurd hout (hnosucc attempt hle b)
    | rateLimited =>
      have hne : attempt ≠ mr := fun h => by rw [h, he] at hout; cases hout
      exact ih (attempt + 1) (by omega) (by omega)
    | transientError e2 =>
      by_cases hm : attempt = mr
      · subst hm
        rw [he] at hout
        cases hout
        simp
      · simp only [if_neg hm]
        exact ih (attempt + 1) (by omega) (by omega)

theorem fetchGo_terminal (url : String) (mr : Nat) (outcomes : Nat → AttemptOutcome)
    (he : outcomes mr = .rateLimited)
    (hnosucc : ∀ i, i ≤ mr → ∀ b, outcomes i ≠ .success b) :
    ∀ fuel attempt, attempt + fuel = mr + 1 →
      (fetchGo url mr outcomes fuel attempt).1 = .error (.terminal url mr) := by
  intro fuel
  induction fuel with
  | zero => intro attempt hsum; rw [fetchGo]
  | succ f ih =>
    intro attempt hsum
    have hle : attempt ≤ mr := by omega
    rw [fetchGo]
    cases hout : outcomes attempt with
    | success b => exact absurd hout (hnosucc attempt hle b)
    | rateLimited => exact ih (attempt + 1) (by omega)
    | transientError e2 =>
      have hne : attempt ≠ mr := fun h => by rw [h, he] at hout; cases hout
      simp only [if_neg hne]
      exact ih (attempt + 1) (by omega)

theorem fetchGo_no_ok (url : String) (mr : Nat) (outcomes : Nat → AttemptOutcome)
    (hnosucc : ∀ i, i ≤ mr → ∀ b, outcomes i ≠ .success b) :
    ∀ fuel attempt, attempt + fuel = mr + 1 →
      ∀ b, (fetchGo url mr outcomes fuel attempt).1 ≠ .ok b := by
  intro fuel
  induction fuel with
  | zero => intro attempt hsum b; rw [fetchGo]; simp
  | succ f ih =>
    intro attempt hsum b
    have hle : attempt ≤ mr := by omega
    rw [fetchGo]
    cases hout : outcomes attempt with
    | success b2 => exact absurd hout (hnosucc attempt hle b2)
    | rateLimited => exact ih (attempt + 1) (by omega) b
    | transientError e2 =>
      by_cases hm : attempt = mr
      · simp [hm]
      · simp only [if_neg hm]
        exact ih (attempt + 1) (by omega) b

/--
C7: when no attempt up to `maxRetries` returns a successful response,
`fetch_page` never returns a value: if the attempt at `maxRetries` fails
with a transient error it raises that underlying error, and if the retries
are exhausted without that final transient error (the final attempt was
rate limited) it raises the terminal error identifying the URL and the
attempt count.
-/
theorem fetch_page_exhaustion (url : String) (mr : Nat) (outcomes : Nat → AttemptOutcome)
    (hmr : 1 ≤ mr) (hnosucc : ∀ i, i ≤ mr → ∀ b, outcomes i ≠ .success b) :
    (∀ e, outcomes mr = .transientError e →
      (fetch_page url mr outcomes).1 = .error (.underlying e)) ∧
    (outcomes mr = .rateLimited →
      (fetch_page url mr outcomes).1 = .error (.terminal url mr)) ∧
    (∀ b, (fetch_page url mr outcomes).1 ≠ .ok b) := by
  refine ⟨?_, ?_, ?_⟩
  · intro e he
    exact fetchGo_underlying url mr outcomes e he hnosucc mr 1 (by omega) hmr
  · intro he
    exact fetchGo_terminal url mr outcomes he hnosucc mr 1 (by omega)
  · intro b
    exact fetchGo_no_ok url mr outcomes hnosucc mr 1 (by omega) b

/-- C7 witness: with maxRetries 2, a rate-limited first attempt and a
transient failure on attempt 2, `fetch_page` raises the underlying error of
the final attempt, would raise the terminal error had the final attempt
been rate limited, and returns no value. -/
theorem fetch_page_exhaustion_witness :
    (∀ e, sampleOutcomes 2 = .transientError e →
      (fetch_page "u" 2 sampleOutcomes).1 = .error (.underlying e)) ∧
    (sampleOutcomes 2 = .rateLimited →
      (fetch_page "u" 2 sampleOutcomes).1 = .error (.terminal "u" 2)) ∧
    (∀ b, (fetch_page "u" 2 sampleOutcomes).1 ≠ .ok b) :=
  fetch_page_exhaustion "u" 2 sampleOutcomes (by decide)
    (by
      intro i hi b hcontra
      interval_cases i <;> simp [sampleOutcomes] at hcontra)

theorem fetchGo_trace (url : String) (mr : Nat) (outcomes : Nat → AttemptOutcome) :
    ∀ fuel attempt, ∃ k, (fetchGo url mr outcomes fuel attempt).2
      = (List.range k).map (fun j => min (2 ^ (attempt + j)) MAX_BACKOFF_SECONDS) := by
  intro fuel
  induction fuel with
  | zero => intro attempt; exact ⟨0, by rw [fetchGo]; simp⟩
  | succ f ih =>
    intro attempt
    rw [fetchGo]
    cases hout : outcomes attempt with
    | success b => exact ⟨0, by simp⟩
    | rateLimited =>
      obtain ⟨k, hk⟩ := ih (attempt + 1)
      refine ⟨k + 1, ?_⟩
      simp only [hk, List.range_succ_eq_map, List.map_cons, List.map_map]
      congr 1
      apply List.map_congr_left
      intro j hj
      simp only [Function.comp_apply]
      congr 2
      omega
    | transientError e =>
      by_cases hm : attempt = mr
      · exact ⟨0, by simp [hm]⟩
      · simp only [if_neg hm]
        obtain ⟨k, hk⟩ := ih (attempt + 1)
        refine ⟨k + 1, ?_⟩
        simp only [hk, List.range_succ_eq_map, List.map_cons, List.map_map]
        congr 1
        apply List.map_congr_left
        intro j hj
        simp only [Function.comp_apply]
        congr 2
        omega

/--
C8: every backoff wait computed by `fetch_page` before a retry — both on
HTTP 429 and on a transient failure — equals `min(2 ^ attempt, 60)` seconds
for its attempt number: the `j`-th recorded wait (the wait after attempt
`j + 1`) is `min(2 ^ (j + 1), MAX_BACKOFF_SECONDS)`; in particular attempt 3
waits 8 seconds and attempt 10 waits the 60-second cap.
-/
theorem fetch_page_backoff (url : String) (mr : Nat) (outcomes : Nat → AttemptOutcome) :
    (∀ j w, ((fetch_page url mr outcomes).2)[j]? = some w
        → w = min (2 ^ (j + 1)) MAX_BACKOFF_SECONDS) ∧
    min (2 ^ 3) MAX_BACKOFF_SECONDS = 8 ∧
    min (2 ^ 10) MAX_BACKOFF_SECONDS = 60 := by
  refine ⟨?_, by decide, by decide⟩
  intro j w hw
  obtain ⟨k, hk⟩ := fetchGo_trace url mr outcomes mr 1
  rw [fetch_page] at hw
  rw [hk] at hw
  rw [List.getElem?_map] at hw
  cases hr : (List.range k)[j]? with
  | none => rw [hr] at hw; cases hw
  | some v =>
    rw [hr] at hw
    have hv : v = j := by
      have := List.getElem?_range (by
        by_contra hjk
        rw [List.getElem?_eq_none (by simpa [List.length_range] using Nat.le_of_not_lt hjk)] at hr
        cases hr)
      · rw [this] at hr
        exact (Option.some_injective _ hr.symm)
    simp only [Option.map_some, hv] at hw
    have h2 := Option.some_injective _ hw
    rw [← h2]
    show 2 ^ (1 + j) ⊓ MAX_BACKOFF_SECONDS = 2 ^ (j + 1) ⊓ MAX_BACKOFF_SECONDS
    rw [Nat.add_comm 1 j]

/-- C8 witness: with maxRetries 3 and every attempt rate limited, the trace
waits are evaluated and each equals the capped power of two. -/
theorem fetch_page_backoff_witness :
    (∀ j w, ((fetch_page "u" 3 (fun _ => .rateLimited)).2)[j]? = some w
        → w = min (2 ^ (j + 1)) MAX_BACKOFF_SECONDS) ∧
    min (2 ^ 3) MAX_BACKOFF_SECONDS = 8 ∧
    min (2 ^ 10) MAX_BACKOFF_SECONDS = 60 :=
  fetch_page_backoff "u" 3 (fun _ => .rateLimited)

theorem create_apply_self (sid cur : String) (st : Nat) (tbl : RunsTable) :
    create_snapshot_run sid cur st tbl (sid, cur)
      = some { snapshotId := sid, currencyCode := cur, startedUtc := st,
               finishedUtc := Option.none, status := RUN_STATUS_RUNNING,
               itemCount := Option.none } := by
  unfold create_snapshot_run
  rw [if_pos rfl]
  cases tbl (sid, cur) <;> rfl

theorem create_apply_other (sid cur : String) (st : Nat) (tbl : RunsTable)
    (k : String × String) (hk : k ≠ (sid, cur)) :
    create_snapshot_run sid cur st tbl k = tbl k := by
  unfold create_snapshot_run
  rw [if_neg hk]

theorem update_apply_self (sid cur st : String) (cnt now : Nat) (tbl : RunsTable) :
    update_snapshot_status sid cur st cnt now tbl (sid, cur)
      = (tbl (sid, cur)).map (fun r =>
          { r with finishedUtc := some now, status := st, itemCount := some cnt }) := by
  unfold update_snapshot_status
  rw [if_pos rfl]

theorem update_apply_other (sid cur st : String) (cnt now : Nat) (tbl : RunsTable)
    (k : String × String) (hk : k ≠ (sid, cur)) :
    update_snapshot_status sid cur st cnt now tbl k = tbl k := by
  unfold update_snapshot_status
  rw [if_neg hk]

theorem upsert_empty_items (sid cur : String) (items : List Item) (bs : Nat)
    (h : items.isEmpty = true) : (upsert_prices_batch sid cur items bs).2 = 0 := by
  simp [upsert_prices_batch, h]

theorem processPages_spec (sid cur : String) (bs : Nat) :
    ∀ ps : List Page, processPages sid cur bs ps
      = (ps.length,
         (ps.map (fun p => (upsert_prices_batch sid cur p.items bs).2)).sum) := by
  intro ps
  induction ps with
  | nil => rfl
  | cons p rest ih =>
    simp only [processPages, ih, List.map_cons, List.sum_cons, List.length_cons]
    by_cases hp : p.items.isEmpty = true
    · rw [if_pos hp, upsert_empty_items sid cur p.items bs hp]
    · rw [if_neg hp]

/--
C1: over a finite page sequence (last page with a null `NextPageLink`,
modelled as the end of the list), `process_currency` performs exactly one
fetch per page and terminates; completing without an exception it returns
the sum of the per-page upserted counts, the run row is set to SUCCEEDED
with `itemCount` equal to that sum, and the orchestrator's result line for
the currency is `"{currency}: {n} items"`.
-/
theorem process_currency_pagination (snapshot_id currency : String)
    (batch_size started now : Nat) (pages : List Page) (tbl : RunsTable)
    (hcur : String.mk (pyStrip currency.data) = currency) :
    process_currency snapshot_id currency batch_size started now (.pages pages) tbl
      = .ok (pages.length,
          (pages.map (fun p =>
            (upsert_prices_batch snapshot_id currency p.items batch_size).2)).sum,
          update_snapshot_status snapshot_id currency RUN_STATUS_SUCCEEDED
            (pages.map (fun p =>
              (upsert_prices_batch snapshot_id currency p.items batch_size).2)).sum now
            (create_snapshot_run snapshot_id currency started tbl)) ∧
    (update_snapshot_status snapshot_id currency RUN_STATUS_SUCCEEDED
        (pages.map (fun p =>
          (upsert_prices_batch snapshot_id currency p.items batch_size).2)).sum now
        (create_snapshot_run snapshot_id currency started tbl)) (snapshot_id, currency)
      = some { snapshotId := snapshot_id, currencyCode := currency,
               startedUtc := started, finishedUtc := some now,
               status := RUN_STATUS_SUCCEEDED,
               itemCount := some (pages.map (fun p =>
                 (upsert_prices_batch snapshot_id currency p.items batch_size).2)).sum } ∧
    process_all_currencies snapshot_id batch_size started now
        (fun _ => .pages pages) [currency] tbl
      = .ok ([currency ++ ": "
            ++ toString (pages.map (fun p =>
                 (upsert_prices_batch snapshot_id currency p.items batch_size).2)).sum
            ++ " items"], [currency],
          update_snapshot_status snapshot_id currency RUN_STATUS_SUCCEEDED
            (pages.map (fun p =>
              (upsert_prices_batch snapshot_id currency p.items batch_size).2)).sum now
            (create_snapshot_run snapshot_id currency started tbl)) := by
  have hpc : process_currency snapshot_id currency batch_size started now
      (.pages pages) tbl
      = .ok (pages.length,
          (pages.map (fun p =>
            (upsert_prices_batch snapshot_id currency p.items batch_size).2)).sum,
          update_snapshot_status snapshot_id currency RUN_STATUS_SUCCEEDED
            (pages.map (fun p =>
              (upsert_prices_batch snapshot_id currency p.items batch_size).2)).sum now
            (create_snapshot_run snapshot_id currency started tbl)) := by
    simp only [process_currency, processPages_spec]
  refine ⟨hpc, ?_, ?_⟩
  · rw [update_apply_self, create_apply_self]
    rfl
  · simp only [process_all_currencies, hcur, hpc]

/--
C1 witness: the spec scenario — currency USD, batchSize 2, two pages of
three distinct items each — fetches twice, reports the line `USD: 6 items`,
and sets the run row to SUCCEEDED with itemCount 6.
-/
theorem process_currency_pagination_witness :
    process_currency "202501" "USD" 2 0 1 (.pages samplePages) emptyRuns
      = .ok (2, 6,
          update_snapshot_status "202501" "USD" RUN_STATUS_SUCCEEDED 6 1
            (create_snapshot_run "202501" "USD" 0 emptyRuns)) ∧
    (update_snapshot_status "202501" "USD" RUN_STATUS_SUCCEEDED 6 1
        (create_snapshot_run "202501" "USD" 0 emptyRuns)) ("202501", "USD")
      = some { snapshotId := "202501", currencyCode := "USD", startedUtc := 0,
               finishedUtc := some 1, status := RUN_STATUS_SUCCEEDED,
               itemCount := some 6 } ∧
    process_all_currencies "202501" 2 0 1 (fun _ => .pages samplePages)
        ["USD"] emptyRuns
      = .ok (["USD: 6 items"], ["USD"],
          update_snapshot_status "202501" "USD" RUN_STATUS_SUCCEEDED 6 1
            (create_snapshot_run "202501" "USD" 0 emptyRuns)) :=
  process_currency_pagination "202501" "USD" 2 0 1 samplePages emptyRuns (by decide)

/--
C5: if every currency before `c` in the configured sequence processes
successfully and processing `c` raises `e`, the orchestrator marks the run
of `c` FAILED with `itemCount` 0, re-raises `e` (the invocation ends in that
error), processes no currency after `c` (the invocation trace is exactly the
prefix up to and including `c`, and the rows of all other keys are
untouched), and every currency completed earlier keeps its SUCCEEDED row
with its item count.
-/
theorem process_all_fail_fast (snapshot_id : String) (batch_size started now : Nat)
    (script : String → CurrencyScript) (pre : List String) (c : String)
    (post : List String) (e : String) (tbl : RunsTable)
    (htrim : ∀ x ∈ pre ++ c :: post, String.mk (pyStrip x.data) = x)
    (hnd : (pre ++ c :: post).Nodup)
    (hpre : ∀ p ∈ pre, isPages (script p) = true)
    (hc : script c = .failWith e) :
    ∃ tbl2,
      process_all_currencies snapshot_id batch_size started now script
          (pre ++ c :: post) tbl
        = .error (e, pre ++ [c], tbl2) ∧
      tbl2 (snapshot_id, c)
        = some { snapshotId := snapshot_id, currencyCode := c,
                 startedUtc := started, finishedUtc := some now,
                 status := RUN_STATUS_FAILED, itemCount := some 0 } ∧
      (∀ p ∈ pre, tbl2 (snapshot_id, p)
        = some { snapshotId := snapshot_id, currencyCode := p,
                 startedUtc := started, finishedUtc := some now,
                 status := RUN_STATUS_SUCCEEDED,
                 itemCount := some (scriptTotal script snapshot_id batch_size p) }) ∧
      (∀ k : String × String, k.2 ∉ pre ++ [c] → tbl2 k = tbl k) := by
  induction pre generalizing tbl with
  | nil =>
    have hcs : String.mk (pyStrip c.data) = c := htrim c (by simp)
    refine ⟨update_snapshot_status snapshot_id c RUN_STATUS_FAILED 0 now
        (create_snapshot_run snapshot_id c started tbl), ?_, ?_, ?_, ?_⟩
    · simp only [List.nil_append, process_all_currencies, hcs, process_currency, hc]
    · rw [update_apply_self, create_apply_self]
      rfl
    · intro p hp
      cases hp
    · intro k hk
      have hkc : k ≠ (snapshot_id, c) := by
        intro hEq
        apply hk
        rw [hEq]
        simp
      rw [update_apply_other snapshot_id c RUN_STATUS_FAILED 0 now _ k hkc,
        create_apply_other snapshot_id c started _ k hkc]
  | cons p pre ih =>
    have hps : String.mk (pyStrip p.data) = p := htrim p (by simp)
    obtain ⟨ps, hsp⟩ : ∃ ps, script p = .pages ps := by
      cases hsp : script p with
      | pages ps => exact ⟨ps, rfl⟩
      | failWith e2 =>
        have hip := hpre p (by simp)
        rw [hsp] at hip
        cases hip
    have hnd0 := List.nodup_cons.mp hnd
    have hpmem : p ∉ pre ++ c :: post := hnd0.1
    have hnd2 : (pre ++ c :: post).Nodup := hnd0.2
    obtain ⟨tbl2, hrun, hcrow, hprerows, hframe⟩ :=
      ih (update_snapshot_status snapshot_id p RUN_STATUS_SUCCEEDED
            (processPages snapshot_id p batch_size ps).2 now
            (create_snapshot_run snapshot_id p started tbl))
        (fun x hx => htrim x (by simp [hx]))
        hnd2
        (fun q hq => hpre q (by simp [hq]))
    refine ⟨tbl2, ?_, hcrow, ?_, ?_⟩
    · have hpc : process_currency snapshot_id p batch_size started now (script p) tbl
          = .ok ((processPages snapshot_id p batch_size ps).1,
              (processPages snapshot_id p batch_size ps).2,
              update_snapshot_status snapshot_id p RUN_STATUS_SUCCEEDED
                (processPages snapshot_id p batch_size ps).2 now
                (create_snapshot_run snapshot_id p started tbl)) := by
        simp only [hsp, process_currency]
      simp only [List.cons_append, process_all_currencies, List.append_eq, hps, hpc, hrun]
    · intro q hq
      rcases List.mem_cons.mp hq with rfl | hq2
      · have hpnotin : q ∉ pre ++ [c] := by
          intro hmem
          apply hpmem
          rcases List.mem_append.mp hmem with h1 | h1
          · exact List.mem_append.mpr (Or.inl h1)
          · rcases List.mem_cons.mp h1 with rfl | h2
            · exact List.mem_append.mpr (Or.inr (List.mem_cons_self _ _))
            · cases h2
        rw [hframe (snapshot_id, q) hpnotin, update_apply_self, create_apply_self]
        simp only [scriptTotal, hsp]
        rfl
      · exact hprerows q hq2
    · intro k hk
      have hk2 : k.2 ∉ pre ++ [c] := by
        intro hmem
        apply hk
        rcases List.mem_append.mp hmem with h1 | h1
        · exact List.mem_append.mpr (Or.inl (List.mem_cons_of_mem _ h1))
        · exact List.mem_append.mpr (Or.inr h1)
      have hkp : k ≠ (snapshot_id, p) := by
        intro hEq
        apply hk
        rw [hEq]
        simp
      rw [hframe k hk2,
        update_apply_other snapshot_id p RUN_STATUS_SUCCEEDED _ now _ k hkp,
        create_apply_other snapshot_id p started _ k hkp]

/--
C5 witness: currencies `[USD, EUR, GBP]` where USD completes with one item
and EUR raises — the orchestrator ends in the error, the trace is
`[USD, EUR]`, EUR's run row is FAILED with itemCount 0, USD keeps its
SUCCEEDED row, and GBP is untouched.
-/
theorem process_all_fail_fast_witness :
    ∃ tbl2,
      process_all_currencies "202501" 1 0 1 sampleScript
          (["USD"] ++ "EUR" :: ["GBP"]) emptyRuns
        = .error ("boom", ["USD"] ++ ["EUR"], tbl2) ∧
      tbl2 ("202501", "EUR")
        = some { snapshotId := "202501", currencyCode := "EUR",
                 startedUtc := 0, finishedUtc := some 1,
                 status := RUN_STATUS_FAILED, itemCount := some 0 } ∧
      (∀ p ∈ ["USD"], tbl2 ("202501", p)
        = some { snapshotId := "202501", currencyCode := p,
                 startedUtc := 0, finishedUtc := some 1,
                 status := RUN_STATUS_SUCCEEDED,
                 itemCount := some (scriptTotal sampleScript "202501" 1 p) }) ∧
      (∀ k : String × String, k.2 ∉ ["USD"] ++ ["EUR"] → tbl2 k = emptyRuns k) :=
  process_all_fail_fast "202501" 1 0 1 sampleScript ["USD"] "EUR" ["GBP"] "boom"
    emptyRuns (by decide) (by decide) (by decide) (by decide)

end PriceSnapshot

